import Mathlib

/-!
Shallow embedding of the progress-aggregation engine of the backend
(src/models/Progress.js and the practice route handlers in
src/routes/listening.js), together with theorems settling the frozen
claims about it.

Modelling conventions:
* Scores, counters and durations are natural numbers (the route layer
  validates integer scores in [0, 100]).
* Skill XP is an integer (XP deltas may be negative) and skill accuracy
  is an exact rational, so that the JavaScript floating-point average
  `(old + sample) / 2` is represented without error.
* Timestamps are natural numbers: milliseconds on a linear local
  timeline whose day 0 starts at a Sunday midnight, so `getDay()` is
  day-number mod 7 and `setHours(0,0,0,0)` truncates to a multiple of
  `msPerDay`.
* JavaScript `Math.round (a / b)` on nonnegative integers rounds half
  up, embedded as `natRoundDiv`.
* Mongoose array mutation through the reference returned by `find`
  (or freshly pushed) is embedded as functional replacement of the
  first matching element (`updateWhere`) or an append.
-/

namespace ProgressLedger

/-- JavaScript Math.round of the quotient a / b for natural numbers
(every call site has b > 0): floor (a / b + 1 / 2), i.e. round half up. -/
def natRoundDiv (a b : ℕ) : ℕ := (2 * a + b) / (2 * b)

/-- Milliseconds in a day. -/
def msPerDay : ℕ := 86400000

/-- Milliseconds in a week. -/
def msPerWeek : ℕ := 604800000

/-- Calendar day number of a millisecond timestamp. -/
def dayNumber (t : ℕ) : ℕ := t / msPerDay

/-- JavaScript getDay(): 0 = Sunday (day 0 of the model timeline is a Sunday). -/
def dayOfWeek (t : ℕ) : ℕ := dayNumber t % 7

/-- JavaScript setHours(0,0,0,0): midnight of the timestamp's calendar day. -/
def midnightOf (t : ℕ) : ℕ := dayNumber t * msPerDay

/-- Replace the first element satisfying q by its image under f,
embedding in-place mutation of the element returned by Array.find. -/
def updateWhere {α : Type} (q : α → Bool) (f : α → α) : List α → List α
  | [] => []
  | e :: es => if q e then f e :: es else e :: updateWhere q f es

/-- Lesson status enumeration of the lessonProgress schema. -/
inductive LessonStatus
  | not_started
  | in_progress
  | completed
  | mastered
deriving DecidableEq, BEq, Repr

/-- One lessonProgress array entry. -/
structure LessonEntry where
  lessonId : String
  status : LessonStatus
  score : ℕ
  attempts : ℕ
  timeSpent : ℕ
  lastAttempt : ℕ
  completedAt : Option ℕ
  masteredAt : Option ℕ
deriving DecidableEq, Repr

/-- Static speaking exercise data supplied by the route. -/
structure SpeakingExerciseInput where
  exerciseId : String
  exerciseText : String
  category : String
  difficulty : String
deriving DecidableEq, Repr

/-- Speaking attempt payload supplied by the route. -/
structure SpeakingAttemptInput where
  pronunciationScore : ℕ
  fluencyScore : ℕ
  accuracyScore : ℕ
  recordingDuration : ℕ
  feedback : String
  improvements : List String
deriving DecidableEq, Repr

/-- One stored speaking attempt. -/
structure SpeakingAttempt where
  attemptDate : ℕ
  pronunciationScore : ℕ
  fluencyScore : ℕ
  accuracyScore : ℕ
  overallScore : ℕ
  recordingDuration : ℕ
  feedback : String
  improvements : List String
deriving DecidableEq, Repr

/-- One speakingProgress array entry. -/
structure SpeakingEntry where
  exerciseId : String
  exerciseText : String
  category : String
  difficulty : String
  attempts : List SpeakingAttempt
  bestScore : ℕ
  totalAttempts : ℕ
  averageScore : ℕ
  lastPracticed : ℕ
  isCompleted : Bool
deriving DecidableEq, Repr

/-- Static listening exercise data supplied by the route. -/
structure ListeningExerciseInput where
  exerciseId : String
  audioTitle : String
  audioUrl : String
  transcript : String
  category : String
  difficulty : String
  duration : ℕ
deriving DecidableEq, Repr

/-- One per-question answer record of a listening attempt. -/
structure AnswerRecord where
  questionId : String
  userAnswer : String
  correctAnswer : String
  isCorrect : Bool
deriving DecidableEq, Repr

/-- Listening attempt payload supplied by the route. -/
structure ListeningAttemptInput where
  comprehensionScore : ℕ
  questionsAnswered : ℕ
  correctAnswers : ℕ
  timeSpent : ℕ
  completionRate : ℕ
  answers : List AnswerRecord
  feedback : String
deriving DecidableEq, Repr

/-- One stored listening attempt. -/
structure ListeningAttempt where
  attemptDate : ℕ
  comprehensionScore : ℕ
  questionsAnswered : ℕ
  correctAnswers : ℕ
  timeSpent : ℕ
  completionRate : ℕ
  answers : List AnswerRecord
  feedback : String
deriving DecidableEq, Repr

/-- One listeningProgress array entry. -/
structure ListeningEntry where
  exerciseId : String
  audioTitle : String
  audioUrl : String
  transcript : String
  category : String
  difficulty : String
  duration : ℕ
  attempts : List ListeningAttempt
  bestScore : ℕ
  totalAttempts : ℕ
  averageScore : ℕ
  lastPracticed : ℕ
  isCompleted : Bool
deriving DecidableEq, Repr

/-- One skillProgress array entry; xp is an integer (deltas may be
negative), accuracy an exact rational. -/
structure SkillEntry where
  skill : String
  level : ℤ
  xp : ℤ
  accuracy : ℚ
  lastPracticed : ℕ
deriving DecidableEq, Repr

/-- One vocabularyProgress array entry. -/
structure VocabEntry where
  word : String
  translation : String
  strength : ℕ
  correctAnswers : ℕ
  totalAnswers : ℕ
  isLearned : Bool
deriving DecidableEq, Repr

/-- Per-activity-type counter inside a daily record; kind is the
source's `type` field. -/
structure ActivityCounter where
  kind : String
  count : ℕ
  xp : ℕ
deriving DecidableEq, Repr

/-- One dailyProgress array entry. -/
structure DailyEntry where
  date : ℕ
  xpEarned : ℕ
  lessonsCompleted : ℕ
  timeSpent : ℕ
  activitiesCompleted : List ActivityCounter
deriving DecidableEq, Repr

/-- The weeklyGoals sub-document. -/
structure WeeklyGoals where
  xpTarget : ℕ
  lessonsTarget : ℕ
  timeTarget : ℕ
  currentWeekXP : ℕ
  currentWeekLessons : ℕ
  currentWeekTime : ℕ
  weekStartDate : ℕ
deriving DecidableEq, Repr

/-- The statistics sub-document; averageScore is the unrounded
floating-point quotient of the source, embedded as a rational. -/
structure Statistics where
  totalLessonsCompleted : ℕ
  totalTimeSpent : ℕ
  averageScore : ℚ
  bestStreak : ℕ
  wordsLearned : ℕ
  perfectScores : ℕ
  speakingExercisesCompleted : ℕ
  listeningExercisesCompleted : ℕ
  averageSpeakingScore : ℕ
  averageListeningScore : ℕ
deriving DecidableEq, Repr

/-- The progress document (one ledger per user and language; the
identity fields play no role in the claims). -/
structure Progress where
  lessonProgress : List LessonEntry
  speakingProgress : List SpeakingEntry
  listeningProgress : List ListeningEntry
  skillProgress : List SkillEntry
  vocabularyProgress : List VocabEntry
  dailyProgress : List DailyEntry
  weeklyGoals : WeeklyGoals
  statistics : Statistics
deriving DecidableEq, Repr

/-- Schema defaults of weeklyGoals; the default weekStartDate keeps the
time of day while moving back to the week's Sunday, as
new Date(now.setDate(now.getDate() - now.getDay())) does. -/
def defaultWeeklyGoals (now : ℕ) : WeeklyGoals :=
  { xpTarget := 1000
    lessonsTarget := 7
    timeTarget := 210
    currentWeekXP := 0
    currentWeekLessons := 0
    currentWeekTime := 0
    weekStartDate := now - dayOfWeek now * msPerDay }

/-- Schema defaults of statistics: all counters zero. -/
def defaultStatistics : Statistics :=
  { totalLessonsCompleted := 0
    totalTimeSpent := 0
    averageScore := 0
    bestStreak := 0
    wordsLearned := 0
    perfectScores := 0
    speakingExercisesCompleted := 0
    listeningExercisesCompleted := 0
    averageSpeakingScore := 0
    averageListeningScore := 0 }

/-- A freshly created progress document with one initial skill entry,
as the practice route handlers create it. -/
def mkInitialProgress (skill : String) (now : ℕ) : Progress :=
  { lessonProgress := []
    speakingProgress := []
    listeningProgress := []
    skillProgress := [{ skill := skill, level := 0, xp := 0, accuracy := 0, lastPracticed := now }]
    vocabularyProgress := []
    dailyProgress := []
    weeklyGoals := defaultWeeklyGoals now
    statistics := defaultStatistics }

/-- Predicate of the completedLessons filter in updateStatistics. -/
def isCompletedOrMastered (lp : LessonEntry) : Bool :=
  lp.status == LessonStatus.completed || lp.status == LessonStatus.mastered

/-- Method updateStatistics of Progress.js (lines 600-628): wholesale
recomputation of the statistics sub-document from the collections; the
three average fields are only overwritten when the relevant collection
is non-empty, and bestStreak is never touched. -/
def updateStatistics (p : Progress) : Progress :=
  let completedLessons := p.lessonProgress.filter isCompletedOrMastered
  let s0 := p.statistics
  let s1 := { s0 with
    totalLessonsCompleted := completedLessons.length
    totalTimeSpent := (p.lessonProgress.map LessonEntry.timeSpent).sum }
  let s2 := if 0 < completedLessons.length then
      { s1 with averageScore :=
          ((completedLessons.map LessonEntry.score).sum : ℚ) / (completedLessons.length : ℚ) }
    else s1
  let s3 := { s2 with
    perfectScores := (p.lessonProgress.filter (fun lp => lp.score == 100)).length
    wordsLearned := (p.vocabularyProgress.filter VocabEntry.isLearned).length
    speakingExercisesCompleted := (p.speakingProgress.filter SpeakingEntry.isCompleted).length
    listeningExercisesCompleted := (p.listeningProgress.filter ListeningEntry.isCompleted).length }
  let s4 := if 0 < p.speakingProgress.length then
      { s3 with averageSpeakingScore :=
          (natRoundDiv (p.speakingProgress.map SpeakingEntry.averageScore).sum
            p.speakingProgress.length) }
    else s3
  let s5 := if 0 < p.listeningProgress.length then
      { s4 with averageListeningScore :=
          (natRoundDiv (p.listeningProgress.map ListeningEntry.averageScore).sum
            p.listeningProgress.length) }
    else s4
  { p with statistics := s5 }

/-- Mutation of an existing lessonProgress entry by one attempt
(updateLessonProgress, found branch, lines 353-371). -/
def applyLessonAttempt (score timeSpent now : ℕ) (e : LessonEntry) : LessonEntry :=
  let e1 := { e with
    attempts := e.attempts + 1
    timeSpent := e.timeSpent + timeSpent
    lastAttempt := now }
  let e2 := if e1.score < score then { e1 with score := score } else e1
  if 90 ≤ score ∧ 2 ≤ e2.attempts then
    { e2 with status := LessonStatus.mastered, masteredAt := some now }
  else if 70 ≤ score then
    { e2 with status := LessonStatus.completed, completedAt := some now }
  else
    { e2 with status := LessonStatus.in_progress }

/-- Fresh lessonProgress entry (updateLessonProgress, create branch,
lines 372-387). -/
def newLessonEntry (lessonId : String) (score timeSpent now : ℕ) : LessonEntry :=
  { lessonId := lessonId
    status := if 70 ≤ score then LessonStatus.completed else LessonStatus.in_progress
    score := score
    attempts := 1
    timeSpent := timeSpent
    lastAttempt := now
    completedAt := if 70 ≤ score then some now else none
    masteredAt := none }

/-- Method updateLessonProgress of Progress.js (lines 350-391). -/
def updateLessonProgress (p : Progress) (lessonId : String) (score timeSpent now : ℕ) :
    Progress :=
  let q : LessonEntry → Bool := fun lp => lp.lessonId == lessonId
  let lps := match p.lessonProgress.find? q with
    | some _ => updateWhere q (applyLessonAttempt score timeSpent now) p.lessonProgress
    | none => p.lessonProgress ++ [newLessonEntry lessonId score timeSpent now]
  updateStatistics { p with lessonProgress := lps }

/-- Derived overall score of a speaking attempt
(line 417: Math.round of the mean of the three sub-scores). -/
def overallOf (a : SpeakingAttemptInput) : ℕ :=
  natRoundDiv (a.pronunciationScore + a.fluencyScore + a.accuracyScore) 3

/-- Mutation of a speakingProgress entry by one attempt
(updateSpeakingProgress lines 416-447). -/
def applySpeakingAttempt (e : SpeakingEntry) (a : SpeakingAttemptInput) (now : ℕ) :
    SpeakingEntry :=
  let overallScore := overallOf a
  let newAttempt : SpeakingAttempt :=
    { attemptDate := now
      pronunciationScore := a.pronunciationScore
      fluencyScore := a.fluencyScore
      accuracyScore := a.accuracyScore
      overallScore := overallScore
      recordingDuration := a.recordingDuration
      feedback := a.feedback
      improvements := a.improvements }
  let atts := e.attempts ++ [newAttempt]
  { e with
    attempts := atts
    totalAttempts := e.totalAttempts + 1
    lastPracticed := now
    bestScore := if e.bestScore < overallScore then overallScore else e.bestScore
    averageScore := natRoundDiv (atts.map SpeakingAttempt.overallScore).sum atts.length
    isCompleted := if 80 ≤ overallScore then true else e.isCompleted }

/-- Fresh speakingProgress entry (updateSpeakingProgress lines 400-414). -/
def freshSpeakingEntry (ex : SpeakingExerciseInput) (now : ℕ) : SpeakingEntry :=
  { exerciseId := ex.exerciseId
    exerciseText := ex.exerciseText
    category := ex.category
    difficulty := ex.difficulty
    attempts := []
    bestScore := 0
    totalAttempts := 0
    averageScore := 0
    lastPracticed := now
    isCompleted := false }

/-- Return value of the speaking and listening progress methods. -/
structure AttemptResult where
  leveledUp : Bool
  newScore : ℕ
deriving DecidableEq, Repr

/-- Method updateSpeakingProgress of Progress.js (lines 394-451). -/
def updateSpeakingProgress (p : Progress) (ex : SpeakingExerciseInput)
    (a : SpeakingAttemptInput) (now : ℕ) : Progress × AttemptResult :=
  let q : SpeakingEntry → Bool := fun sp => sp.exerciseId == ex.exerciseId
  let sps := match p.speakingProgress.find? q with
    | some _ => updateWhere q (fun sp => applySpeakingAttempt sp a now) p.speakingProgress
    | none => p.speakingProgress ++ [applySpeakingAttempt (freshSpeakingEntry ex now) a now]
  (updateStatistics { p with speakingProgress := sps },
   { leveledUp := false, newScore := overallOf a })

/-- Mutation of a listeningProgress entry by one attempt
(updateListeningProgress lines 479-507). -/
def applyListeningAttempt (e : ListeningEntry) (a : ListeningAttemptInput) (now : ℕ) :
    ListeningEntry :=
  let newAttempt : ListeningAttempt :=
    { attemptDate := now
      comprehensionScore := a.comprehensionScore
      questionsAnswered := a.questionsAnswered
      correctAnswers := a.correctAnswers
      timeSpent := a.timeSpent
      completionRate := a.completionRate
      answers := a.answers
      feedback := a.feedback }
  let atts := e.attempts ++ [newAttempt]
  { e with
    attempts := atts
    totalAttempts := e.totalAttempts + 1
    lastPracticed := now
    bestScore := if e.bestScore < a.comprehensionScore then a.comprehensionScore else e.bestScore
    averageScore := natRoundDiv (atts.map ListeningAttempt.comprehensionScore).sum atts.length
    isCompleted := if 80 ≤ a.comprehensionScore then true else e.isCompleted }

/-- Fresh listeningProgress entry (updateListeningProgress lines 460-477). -/
def freshListeningEntry (ex : ListeningExerciseInput) (now : ℕ) : ListeningEntry :=
  { exerciseId := ex.exerciseId
    audioTitle := ex.audioTitle
    audioUrl := ex.audioUrl
    transcript := ex.transcript
    category := ex.category
    difficulty := ex.difficulty
    duration := ex.duration
    attempts := []
    bestScore := 0
    totalAttempts := 0
    averageScore := 0
    lastPracticed := now
    isCompleted := false }

/-- Method updateListeningProgress of Progress.js (lines 454-511). -/
def updateListeningProgress (p : Progress) (ex : ListeningExerciseInput)
    (a : ListeningAttemptInput) (now : ℕ) : Progress × AttemptResult :=
  let q : ListeningEntry → Bool := fun lp => lp.exerciseId == ex.exerciseId
  let lps := match p.listeningProgress.find? q with
    | some _ => updateWhere q (fun lp => applyListeningAttempt lp a now) p.listeningProgress
    | none => p.listeningProgress ++ [applyListeningAttempt (freshListeningEntry ex now) a now]
  (updateStatistics { p with listeningProgress := lps },
   { leveledUp := false, newScore := a.comprehensionScore })

/-- Return value of updateSkillProgress. -/
structure SkillResult where
  leveledUp : Bool
  skill : String
  level : ℤ
deriving DecidableEq, Repr

/-- Mutation of a skillProgress entry plus the returned result
(updateSkillProgress lines 527-538): the level is overwritten only when
the recomputed level strictly exceeds the stored one. -/
def applySkillUpdate (e : SkillEntry) (xpGained : ℤ) (accuracy : ℚ) (now : ℕ) :
    SkillEntry × SkillResult :=
  let xp1 := e.xp + xpGained
  let acc1 := (e.accuracy + accuracy) / 2
  let newLevel := min (Int.fdiv xp1 500) 10
  if e.level < newLevel then
    ({ e with xp := xp1, accuracy := acc1, lastPracticed := now, level := newLevel },
     { leveledUp := true, skill := e.skill, level := newLevel })
  else
    ({ e with xp := xp1, accuracy := acc1, lastPracticed := now },
     { leveledUp := false, skill := e.skill, level := e.level })

/-- Fresh skillProgress entry (updateSkillProgress lines 516-525). -/
def freshSkillEntry (skill : String) (now : ℕ) : SkillEntry :=
  { skill := skill, level := 0, xp := 0, accuracy := 0, lastPracticed := now }

/-- Method updateSkillProgress of Progress.js (lines 513-539). -/
def updateSkillProgress (p : Progress) (skill : String) (xpGained : ℤ) (accuracy : ℚ)
    (now : ℕ) : Progress × SkillResult :=
  let q : SkillEntry → Bool := fun sp => sp.skill == skill
  match p.skillProgress.find? q with
  | some e =>
    ({ p with skillProgress :=
        updateWhere q (fun sp => (applySkillUpdate sp xpGained accuracy now).1) p.skillProgress },
     (applySkillUpdate e xpGained accuracy now).2)
  | none =>
    let er := applySkillUpdate (freshSkillEntry skill now) xpGained accuracy now
    ({ p with skillProgress := p.skillProgress ++ [er.1] }, er.2)

/-- Week-start anchor the code computes on reset (line 589):
local midnight of the current date minus the day-of-week, i.e. the most
recent Sunday midnight of the model timeline. -/
def codeWeekAnchor (now : ℕ) : ℕ := (dayNumber now - dayOfWeek now) * msPerDay

/-- Method updateWeeklyProgress of Progress.js (lines 579-598), acting on
the weeklyGoals sub-document: reset when at least 7 whole days have
elapsed, then unconditional accumulation of this event. -/
def updateWeeklyGoals (g : WeeklyGoals) (xp : ℕ) (activityType : String) (timeSpent : ℕ)
    (now : ℕ) : WeeklyGoals :=
  let daysDiff : ℤ := Int.fdiv ((now : ℤ) - (g.weekStartDate : ℤ)) (msPerDay : ℤ)
  let g1 := if 7 ≤ daysDiff then
      { g with
        currentWeekXP := 0
        currentWeekLessons := 0
        currentWeekTime := 0
        weekStartDate := codeWeekAnchor now }
    else g
  let g2 := { g1 with
    currentWeekXP := g1.currentWeekXP + xp
    currentWeekTime := g1.currentWeekTime + timeSpent }
  if activityType == "lesson" then
    { g2 with currentWeekLessons := g2.currentWeekLessons + 1 }
  else g2

/-- Lift of updateWeeklyGoals to the progress document. -/
def updateWeeklyProgress (p : Progress) (xp : ℕ) (activityType : String) (timeSpent : ℕ)
    (now : ℕ) : Progress :=
  { p with weeklyGoals := updateWeeklyGoals p.weeklyGoals xp activityType timeSpent now }

/-- Mutation of a dailyProgress entry (updateDailyProgress lines 560-574). -/
def applyDailyUpdate (xp : ℕ) (activityType : String) (timeSpent : ℕ) (d : DailyEntry) :
    DailyEntry :=
  let d1 := { d with xpEarned := d.xpEarned + xp, timeSpent := d.timeSpent + timeSpent }
  let d2 := if activityType == "lesson" then
      { d1 with lessonsCompleted := d1.lessonsCompleted + 1 }
    else d1
  let qa : ActivityCounter → Bool := fun a => a.kind == activityType
  let acts := match d2.activitiesCompleted.find? qa with
    | some _ =>
      updateWhere qa (fun a => { a with count := a.count + 1, xp := a.xp + xp })
        d2.activitiesCompleted
    | none => d2.activitiesCompleted ++ [{ kind := activityType, count := 1, xp := xp }]
  { d2 with activitiesCompleted := acts }

/-- Method updateDailyProgress of Progress.js (lines 541-577). -/
def updateDailyProgress (p : Progress) (xp : ℕ) (activityType : String) (timeSpent : ℕ)
    (now : ℕ) : Progress :=
  let today := midnightOf now
  let qd : DailyEntry → Bool := fun dp => dp.date == today
  let dps := match p.dailyProgress.find? qd with
    | some _ => updateWhere qd (applyDailyUpdate xp activityType timeSpent) p.dailyProgress
    | none =>
      p.dailyProgress ++
        [applyDailyUpdate xp activityType timeSpent
          { date := today, xpEarned := 0, lessonsCompleted := 0, timeSpent := 0,
            activitiesCompleted := [] }]
  updateWeeklyProgress { p with dailyProgress := dps } xp activityType timeSpent now

/-- Values the practice route handlers put into the HTTP response
(the user-document XP and streak updates live outside the ledger). -/
structure PracticeRouteOutcome where
  progress : Progress
  newBestScore : Bool
  xpEarned : ℕ

/-- Listening practice handler of src/routes/listening.js
(lines 258-302): records the attempt, awards XP to the listening skill
and the daily rollup, and computes the newBestScore response field by
comparing the attempt score against the entry's bestScore as it stands
after the update. -/
def listeningPracticeRoute (p : Progress) (ex : ListeningExerciseInput)
    (a : ListeningAttemptInput) (now : ℕ) : PracticeRouteOutcome :=
  let pr := updateListeningProgress p ex a now
  let baseXP := natRoundDiv a.comprehensionScore 10 + 5
  let completionBonus := natRoundDiv a.completionRate 20
  let xpReward := baseXP + completionBonus
  let p2 := (updateSkillProgress pr.1 "listening" (xpReward : ℤ) (a.comprehensionScore : ℚ) now).1
  let p3 := updateDailyProgress p2 xpReward "listening" (natRoundDiv a.timeSpent 60) now
  let best :=
    ((p3.listeningProgress.find? (fun lp => lp.exerciseId == ex.exerciseId)).map
      ListeningEntry.bestScore).getD 0
  { progress := p3, newBestScore := decide (best < pr.2.newScore), xpEarned := xpReward }

/-- Speaking practice handler of src/routes/listening.js
(lines 591-619): same shape, with the overall score recomputed at the
route level for the XP reward. -/
def speakingPracticeRoute (p : Progress) (ex : SpeakingExerciseInput)
    (a : SpeakingAttemptInput) (now : ℕ) : PracticeRouteOutcome :=
  let pr := updateSpeakingProgress p ex a now
  let overallScore := natRoundDiv (a.pronunciationScore + a.fluencyScore + a.accuracyScore) 3
  let xpReward := natRoundDiv overallScore 10 + 5
  let p2 := (updateSkillProgress pr.1 "speaking" (xpReward : ℤ) (overallScore : ℚ) now).1
  let p3 := updateDailyProgress p2 xpReward "speaking" (natRoundDiv a.recordingDuration 60) now
  let best :=
    ((p3.speakingProgress.find? (fun sp => sp.exerciseId == ex.exerciseId)).map
      SpeakingEntry.bestScore).getD 0
  { progress := p3, newBestScore := decide (best < pr.2.newScore), xpEarned := xpReward }

/-- Status rule as the specification states it: mastered exactly when the
attempt's score is at least 90 and the attempt count including this
attempt is at least 2, completed when the score is at least 70, else
in progress. -/
def lessonStatusSpec (score attempts : ℕ) : LessonStatus :=
  if 90 ≤ score ∧ 2 ≤ attempts then LessonStatus.mastered
  else if 70 ≤ score then LessonStatus.completed
  else LessonStatus.in_progress

/-- Midnight of the most recent Sunday relative to now, as the spec
words it: the largest week boundary not exceeding now (day 0 of the
model timeline starts a Sunday). -/
def mostRecentSundayMidnight (now : ℕ) : ℕ := msPerWeek * (now / msPerWeek)

/-- C3: recording a lesson attempt yields status mastered exactly when
the score is at least 90 and the attempt count including this attempt is
at least 2, completed when the score is at least 70 but mastery fails,
and in progress otherwise; in particular a first attempt of 95 yields
completed and a second attempt of 92 then yields mastered. -/
theorem lesson_status_transition_rule :
    (∀ (e : LessonEntry) (score timeSpent now : ℕ),
        (applyLessonAttempt score timeSpent now e).status =
          lessonStatusSpec score (e.attempts + 1)) ∧
    (∀ (lessonId : String) (score timeSpent now : ℕ),
        (newLessonEntry lessonId score timeSpent now).status = lessonStatusSpec score 1) ∧
    ((updateLessonProgress (mkInitialProgress "speaking" 0) "lesson1" 95 5 0).lessonProgress.map
        LessonEntry.status = [LessonStatus.completed]) ∧
    ((updateLessonProgress (updateLessonProgress (mkInitialProgress "speaking" 0) "lesson1" 95 5 0)
        "lesson1" 92 5 0).lessonProgress.map LessonEntry.status = [LessonStatus.mastered]) := by
  refine ⟨?_, ?_, by decide, by decide⟩
  · intro e score timeSpent now
    simp only [applyLessonAttempt, lessonStatusSpec]
    by_cases h : e.score < score
    · simp only [if_pos h]
      split_ifs <;> rfl
    · simp only [if_neg h]
      split_ifs <;> rfl
  · intro lessonId score timeSpent now
    simp only [newLessonEntry, lessonStatusSpec]
    split_ifs <;> first | rfl | omega

/-- C4: a speaking attempt's derived overall score, as stored in the
appended attempt record, is the rounded mean of the three sub-scores,
and the entry's completion flag becomes true exactly when that overall
score reaches 80 (otherwise it keeps its previous value); sub-scores
(90, 80, 70) give overall 80 and completion. -/
theorem speaking_overall_and_completion :
    (∀ (e : SpeakingEntry) (a : SpeakingAttemptInput) (now : ℕ),
        ((applySpeakingAttempt e a now).attempts.map SpeakingAttempt.overallScore).getLast? =
          some (natRoundDiv (a.pronunciationScore + a.fluencyScore + a.accuracyScore) 3) ∧
        (applySpeakingAttempt e a now).isCompleted =
          (if 80 ≤ natRoundDiv (a.pronunciationScore + a.fluencyScore + a.accuracyScore) 3
            then true else e.isCompleted)) ∧
    natRoundDiv (90 + 80 + 70) 3 = 80 ∧
    ((applySpeakingAttempt (freshSpeakingEntry ⟨"sp1", "text", "daily", "beginner"⟩ 0)
        ⟨90, 80, 70, 30, "", []⟩ 0).isCompleted = true) := by
  refine ⟨?_, by decide, by decide⟩
  intro e a now
  unfold applySpeakingAttempt overallOf
  simp [List.getLast?_concat]

/-- C6: each skill update stores exactly the two-point running average
of the old accuracy and the new sample; folding the three samples
90, 50, 70 into a fresh record gives 58.75, which differs from their
arithmetic mean 70. -/
theorem skill_accuracy_two_point_update :
    (∀ (e : SkillEntry) (xpGained : ℤ) (s : ℚ) (now : ℕ),
        ((applySkillUpdate e xpGained s now).1).accuracy = (e.accuracy + s) / 2) ∧
    (((applySkillUpdate ((applySkillUpdate ((applySkillUpdate
        (freshSkillEntry "grammar" 0) 0 90 0).1) 0 50 0).1) 0 70 0).1).accuracy = 235 / 4 ∧
      (90 + 50 + 70 : ℚ) / 3 = 70 ∧
      ((applySkillUpdate ((applySkillUpdate ((applySkillUpdate
        (freshSkillEntry "grammar" 0) 0 90 0).1) 0 50 0).1) 0 70 0).1).accuracy ≠ 70) := by
  have hacc : ∀ (e : SkillEntry) (xpGained : ℤ) (s : ℚ) (now : ℕ),
      ((applySkillUpdate e xpGained s now).1).accuracy = (e.accuracy + s) / 2 := by
    intro e xpGained s now
    simp only [applySkillUpdate]
    split_ifs <;> rfl
  have h3 : ((applySkillUpdate ((applySkillUpdate ((applySkillUpdate
      (freshSkillEntry "grammar" 0) 0 90 0).1) 0 50 0).1) 0 70 0).1).accuracy = 235 / 4 := by
    rw [hacc, hacc, hacc]
    norm_num [freshSkillEntry]
  refine ⟨hacc, h3, by norm_num, ?_⟩
  rw [h3]
  norm_num

/-- C10: a skill update never lowers the stored level: the new stored
level is the maximum of the old level and the level recomputed from the
new cumulative XP, so it is overwritten only when the recomputed level
strictly exceeds it, even for negative XP deltas. -/
theorem skill_level_never_decreases :
    ∀ (e : SkillEntry) (xpGained : ℤ) (s : ℚ) (now : ℕ),
      e.level ≤ ((applySkillUpdate e xpGained s now).1).level ∧
      ((applySkillUpdate e xpGained s now).1).level =
        max e.level (min (Int.fdiv (e.xp + xpGained) 500) 10) := by
  intro e xpGained s now
  simp only [applySkillUpdate]
  split_ifs with h
  · exact ⟨le_of_lt h, (max_eq_right (le_of_lt h)).symm⟩
  · exact ⟨le_refl _, (max_eq_left (not_lt.mp h)).symm⟩

lemma codeWeekAnchor_eq_sunday (now : ℕ) :
    codeWeekAnchor now = mostRecentSundayMidnight now := by
  simp only [codeWeekAnchor, mostRecentSundayMidnight, dayOfWeek, dayNumber, msPerWeek,
    msPerDay]
  omega

/-- C7 counterexample: with a week-start anchor 8 days old, the call
resets the three counters but then still accumulates this event, so
after the call the weekly XP counter holds 10, not 0. -/
theorem weekly_reset_counters_not_zero :
    (updateWeeklyGoals (defaultWeeklyGoals 0) 10 "listening" 3 (8 * msPerDay)).currentWeekXP
        = 10 ∧
    (updateWeeklyGoals (defaultWeeklyGoals 0) 10 "listening" 3 (8 * msPerDay)).currentWeekTime
        = 3 ∧
    (7 : ℤ) ≤ Int.fdiv (((8 * msPerDay : ℕ) : ℤ) - ((defaultWeeklyGoals 0).weekStartDate : ℤ))
        (msPerDay : ℤ) ∧
    (updateWeeklyGoals (defaultWeeklyGoals 0) 10 "listening" 3 (8 * msPerDay)).currentWeekXP
        ≠ 0 := by
  decide

/-- C7 (amended): when at least 7 whole days have elapsed since the
stored anchor, the weekly rollup zeroes the three counters and advances
the anchor to midnight of the most recent Sunday, and then still
accumulates this event's XP and time (and lesson count for lesson
activity) into the freshly reset counters; otherwise it accumulates
into the current counters; the targets are never changed. -/
theorem weekly_rollup_reset_and_accumulate :
    ∀ (g : WeeklyGoals) (xp : ℕ) (activityType : String) (timeSpent now : ℕ),
      ((updateWeeklyGoals g xp activityType timeSpent now).currentWeekXP =
        (if 7 ≤ Int.fdiv ((now : ℤ) - (g.weekStartDate : ℤ)) (msPerDay : ℤ) then 0
          else g.currentWeekXP) + xp) ∧
      ((updateWeeklyGoals g xp activityType timeSpent now).currentWeekTime =
        (if 7 ≤ Int.fdiv ((now : ℤ) - (g.weekStartDate : ℤ)) (msPerDay : ℤ) then 0
          else g.currentWeekTime) + timeSpent) ∧
      ((updateWeeklyGoals g xp activityType timeSpent now).currentWeekLessons =
        (if 7 ≤ Int.fdiv ((now : ℤ) - (g.weekStartDate : ℤ)) (msPerDay : ℤ) then 0
          else g.currentWeekLessons) + (if activityType == "lesson" then 1 else 0)) ∧
      ((updateWeeklyGoals g xp activityType timeSpent now).weekStartDate =
        (if 7 ≤ Int.fdiv ((now : ℤ) - (g.weekStartDate : ℤ)) (msPerDay : ℤ) then
          mostRecentSundayMidnight now else g.weekStartDate)) ∧
      ((updateWeeklyGoals g xp activityType timeSpent now).xpTarget = g.xpTarget) ∧
      ((updateWeeklyGoals g xp activityType timeSpent now).lessonsTarget = g.lessonsTarget) ∧
      ((updateWeeklyGoals g xp activityType timeSpent now).timeTarget = g.timeTarget) := by
  intro g xp activityType timeSpent now
  simp only [updateWeeklyGoals, codeWeekAnchor_eq_sunday]
  split_ifs <;> simp_all

lemma speaking_fold_scores (now : ℕ) (l : List SpeakingAttemptInput) :
    ∀ e : SpeakingEntry,
      ((l.foldl (fun acc a => applySpeakingAttempt acc a now) e).attempts.map
        SpeakingAttempt.overallScore) =
      e.attempts.map SpeakingAttempt.overallScore ++ l.map overallOf := by
  induction l with
  | nil => intro e; simp
  | cons a l ih =>
    intro e
    simp only [List.foldl_cons, List.map_cons]
    rw [ih (applySpeakingAttempt e a now)]
    have h : (applySpeakingAttempt e a now).attempts.map SpeakingAttempt.overallScore =
        e.attempts.map SpeakingAttempt.overallScore ++ [overallOf a] := by
      simp [applySpeakingAttempt]
    rw [h, List.append_assoc]
    rfl

lemma speaking_fold_total (now : ℕ) (l : List SpeakingAttemptInput) :
    ∀ e : SpeakingEntry,
      (l.foldl (fun acc a => applySpeakingAttempt acc a now) e).totalAttempts =
        e.totalAttempts + l.length := by
  induction l with
  | nil => intro e; simp
  | cons a l ih =>
    intro e
    simp only [List.foldl_cons, List.length_cons]
    rw [ih (applySpeakingAttempt e a now)]
    simp only [applySpeakingAttempt]
    omega

lemma speaking_fold_best (now : ℕ) (l : List SpeakingAttemptInput) :
    ∀ e : SpeakingEntry,
      (l.foldl (fun acc a => applySpeakingAttempt acc a now) e).bestScore =
        (l.map overallOf).foldl max e.bestScore := by
  induction l with
  | nil => intro e; rfl
  | cons a l ih =>
    intro e
    simp only [List.foldl_cons, List.map_cons]
    rw [ih (applySpeakingAttempt e a now)]
    have h : (applySpeakingAttempt e a now).bestScore = max e.bestScore (overallOf a) := by
      simp only [applySpeakingAttempt]
      split_ifs with hb <;> omega
    rw [h]

lemma speaking_fold_average (now : ℕ) (l : List SpeakingAttemptInput) (hl : l ≠ []) :
    ∀ e : SpeakingEntry,
      (l.foldl (fun acc a => applySpeakingAttempt acc a now) e).averageScore =
        natRoundDiv
          ((l.foldl (fun acc a => applySpeakingAttempt acc a now) e).attempts.map
            SpeakingAttempt.overallScore).sum
          (l.foldl (fun acc a => applySpeakingAttempt acc a now) e).attempts.length := by
  induction l with
  | nil => exact absurd rfl hl
  | cons a l ih =>
    intro e
    by_cases h : l = []
    · subst h
      simp only [List.foldl_cons, List.foldl_nil]
      simp [applySpeakingAttempt]
    · simp only [List.foldl_cons]
      exact ih h (applySpeakingAttempt e a now)

lemma listening_fold_scores (now : ℕ) (l : List ListeningAttemptInput) :
    ∀ e : ListeningEntry,
      ((l.foldl (fun acc a => applyListeningAttempt acc a now) e).attempts.map
        ListeningAttempt.comprehensionScore) =
      e.attempts.map ListeningAttempt.comprehensionScore ++
        l.map ListeningAttemptInput.comprehensionScore := by
  induction l with
  | nil => intro e; simp
  | cons a l ih =>
    intro e
    simp only [List.foldl_cons, List.map_cons]
    rw [ih (applyListeningAttempt e a now)]
    have h : (applyListeningAttempt e a now).attempts.map ListeningAttempt.comprehensionScore =
        e.attempts.map ListeningAttempt.comprehensionScore ++ [a.comprehensionScore] := by
      simp [applyListeningAttempt]
    rw [h, List.append_assoc]
    rfl

lemma listening_fold_total (now : ℕ) (l : List ListeningAttemptInput) :
    ∀ e : ListeningEntry,
      (l.foldl (fun acc a => applyListeningAttempt acc a now) e).totalAttempts =
        e.totalAttempts + l.length := by
  induction l with
  | nil => intro e; simp
  | cons a l ih =>
    intro e
    simp only [List.foldl_cons, List.length_cons]
    rw [ih (applyListeningAttempt e a now)]
    simp only [applyListeningAttempt]
    omega

lemma listening_fold_best (now : ℕ) (l : List ListeningAttemptInput) :
    ∀ e : ListeningEntry,
      (l.foldl (fun acc a => applyListeningAttempt acc a now) e).bestScore =
        (l.map ListeningAttemptInput.comprehensionScore).foldl max e.bestScore := by
  induction l with
  | nil => intro e; rfl
  | cons a l ih =>
    intro e
    simp only [List.foldl_cons, List.map_cons]
    rw [ih (applyListeningAttempt e a now)]
    have h : (applyListeningAttempt e a now).bestScore = max e.bestScore a.comprehensionScore := by
      simp only [applyListeningAttempt]
      split_ifs with hb <;> omega
    rw [h]

lemma listening_fold_average (now : ℕ) (l : List ListeningAttemptInput) (hl : l ≠ []) :
    ∀ e : ListeningEntry,
      (l.foldl (fun acc a => applyListeningAttempt acc a now) e).averageScore =
        natRoundDiv
          ((l.foldl (fun acc a => applyListeningAttempt acc a now) e).attempts.map
            ListeningAttempt.comprehensionScore).sum
          (l.foldl (fun acc a => applyListeningAttempt acc a now) e).attempts.length := by
  induction l with
  | nil => exact absurd rfl hl
  | cons a l ih =>
    intro e
    by_cases h : l = []
    · subst h
      simp only [List.foldl_cons, List.foldl_nil]
      simp [applyListeningAttempt]
    · simp only [List.foldl_cons]
      exact ih h (applyListeningAttempt e a now)

/-- C2: for any sequence of attempts folded into a fresh speaking or
listening entry, the entry's bestScore is the maximum of the attempts'
scores, its averageScore is the rounded mean of those scores, its
totalAttempts equals the number of attempts, and the attempt log has
exactly that many records (the speaking score of an attempt is its
derived overall score, the listening score its comprehension score). -/
theorem entry_best_average_total_invariants :
    (∀ (l : List SpeakingAttemptInput) (ex : SpeakingExerciseInput) (now : ℕ),
      ((l.foldl (fun acc a => applySpeakingAttempt acc a now) (freshSpeakingEntry ex now)).bestScore
          = (l.map overallOf).foldl max 0) ∧
      ((l.foldl (fun acc a => applySpeakingAttempt acc a now) (freshSpeakingEntry ex now)).averageScore
          = natRoundDiv (l.map overallOf).sum l.length) ∧
      ((l.foldl (fun acc a => applySpeakingAttempt acc a now) (freshSpeakingEntry ex now)).totalAttempts
          = l.length) ∧
      ((l.foldl (fun acc a => applySpeakingAttempt acc a now) (freshSpeakingEntry ex now)).attempts.length
          = l.length)) ∧
    (∀ (l : List ListeningAttemptInput) (ex : ListeningExerciseInput) (now : ℕ),
      ((l.foldl (fun acc a => applyListeningAttempt acc a now) (freshListeningEntry ex now)).bestScore
          = (l.map ListeningAttemptInput.comprehensionScore).foldl max 0) ∧
      ((l.foldl (fun acc a => applyListeningAttempt acc a now) (freshListeningEntry ex now)).averageScore
          = natRoundDiv (l.map ListeningAttemptInput.comprehensionScore).sum l.length) ∧
      ((l.foldl (fun acc a => applyListeningAttempt acc a now) (freshListeningEntry ex now)).totalAttempts
          = l.length) ∧
      ((l.foldl (fun acc a => applyListeningAttempt acc a now) (freshListeningEntry ex now)).attempts.length
          = l.length)) := by
  constructor
  · intro l ex now
    have hs := speaking_fold_scores now l (freshSpeakingEntry ex now)
    have hlen : (l.foldl (fun acc a => applySpeakingAttempt acc a now)
        (freshSpeakingEntry ex now)).attempts.length = l.length := by
      have := congrArg List.length hs
      simpa [freshSpeakingEntry] using this
    refine ⟨?_, ?_, ?_, hlen⟩
    · rw [speaking_fold_best now l (freshSpeakingEntry ex now)]
      rfl
    · by_cases hl : l = []
      · subst hl; rfl
      · rw [speaking_fold_average now l hl (freshSpeakingEntry ex now), hlen]
        have hsum : ((l.foldl (fun acc a => applySpeakingAttempt acc a now)
            (freshSpeakingEntry ex now)).attempts.map SpeakingAttempt.overallScore).sum
            = (l.map overallOf).sum := by
          rw [hs]
          simp [freshSpeakingEntry]
        rw [hsum]
    · rw [speaking_fold_total now l (freshSpeakingEntry ex now)]
      simp [freshSpeakingEntry]
  · intro l ex now
    have hs := listening_fold_scores now l (freshListeningEntry ex now)
    have hlen : (l.foldl (fun acc a => applyListeningAttempt acc a now)
        (freshListeningEntry ex now)).attempts.length = l.length := by
      have := congrArg List.length hs
      simpa [freshListeningEntry] using this
    refine ⟨?_, ?_, ?_, hlen⟩
    · rw [listening_fold_best now l (freshListeningEntry ex now)]
      rfl
    · by_cases hl : l = []
      · subst hl; rfl
      · rw [listening_fold_average now l hl (freshListeningEntry ex now), hlen]
        have hsum : ((l.foldl (fun acc a => applyListeningAttempt acc a now)
            (freshListeningEntry ex now)).attempts.map ListeningAttempt.comprehensionScore).sum
            = (l.map ListeningAttemptInput.comprehensionScore).sum := by
          rw [hs]
          simp [freshListeningEntry]
        rw [hsum]
    · rw [listening_fold_total now l (freshListeningEntry ex now)]
      simp [freshListeningEntry]

/-- C9: the speaking and listening completion flags are one-way
ratchets: once an entry's isCompleted flag is true, no sequence of
further recorded attempts (with any scores and timestamps) ever makes
it false again. -/
theorem completion_flag_never_cleared :
    (∀ (e : SpeakingEntry) (l : List (SpeakingAttemptInput × ℕ)),
        e.isCompleted = true →
        (l.foldl (fun acc pa => applySpeakingAttempt acc pa.1 pa.2) e).isCompleted = true) ∧
    (∀ (e : ListeningEntry) (l : List (ListeningAttemptInput × ℕ)),
        e.isCompleted = true →
        (l.foldl (fun acc pa => applyListeningAttempt acc pa.1 pa.2) e).isCompleted = true) := by
  constructor
  · intro e l
    induction l generalizing e with
    | nil => intro h; exact h
    | cons pa l ih =>
      intro h
      simp only [List.foldl_cons]
      apply ih
      simp only [applySpeakingAttempt]
      split_ifs <;> simp [h]
  · intro e l
    induction l generalizing e with
    | nil => intro h; exact h
    | cons pa l ih =>
      intro h
      simp only [List.foldl_cons]
      apply ih
      simp only [applyListeningAttempt]
      split_ifs <;> simp [h]

/-- Witness for the completion-flag ratchet: a concrete completed
speaking entry and a concrete completed listening entry stay completed
after a low-scoring attempt. -/
theorem completion_flag_never_cleared_witness :
    ((([(⟨10, 10, 10, 5, "", []⟩, 7)] : List (SpeakingAttemptInput × ℕ)).foldl
        (fun acc pa => applySpeakingAttempt acc pa.1 pa.2)
        ⟨"sp1", "text", "daily", "beginner", [], 90, 1, 90, 0, true⟩).isCompleted = true) ∧
    ((([(⟨20, 3, 1, 60, 50, [], ""⟩, 7)] : List (ListeningAttemptInput × ℕ)).foldl
        (fun acc pa => applyListeningAttempt acc pa.1 pa.2)
        ⟨"ex1", "title", "url", "tr", "news", "beginner", 60, [], 85, 1, 85, 0, true⟩).isCompleted
        = true) :=
  ⟨completion_flag_never_cleared.1 _ _ rfl, completion_flag_never_cleared.2 _ _ rfl⟩

/-- Skill record after a gain of 500 XP followed by a loss of 600 XP:
its stored level stays 1 although its cumulative XP is negative. -/
def skillAfterGainAndLoss : SkillEntry :=
  (applySkillUpdate ((applySkillUpdate (freshSkillEntry "grammar" 7) 500 50 7).1) (-600) 50 7).1

/-- C5 counterexample: after XP deltas 500 and then minus 600 the stored
level is 1 while min(floor(xp / 500), 10) over the cumulative XP of
minus 100 is minus 1, so the stored level is not the claimed pure
function of cumulative XP. -/
theorem skill_level_formula_counterexample :
    skillAfterGainAndLoss.level = 1 ∧ skillAfterGainAndLoss.xp = -100 ∧
    min (Int.fdiv skillAfterGainAndLoss.xp 500) 10 = -1 ∧
    skillAfterGainAndLoss.level ≠ min (Int.fdiv skillAfterGainAndLoss.xp 500) 10 := by
  refine ⟨rfl, rfl, rfl, ?_⟩
  intro h
  exact absurd (rfl.trans h) (by decide)

lemma skill_fold_level_invariant (now : ℕ) (l : List (ℤ × ℚ)) :
    ∀ e : SkillEntry, (∀ d ∈ l, 0 ≤ d.1) →
      e.level = min (Int.fdiv e.xp 500) 10 →
      (l.foldl (fun acc d => (applySkillUpdate acc d.1 d.2 now).1) e).level =
        min (Int.fdiv (l.foldl (fun acc d => (applySkillUpdate acc d.1 d.2 now).1) e).xp 500)
          10 := by
  induction l with
  | nil => intro e _ h; exact h
  | cons d l ih =>
    intro e hpos h
    simp only [List.foldl_cons]
    apply ih _ (fun d' hd' => hpos d' (List.mem_cons_of_mem _ hd'))
    have hd : 0 ≤ d.1 := hpos d (List.mem_cons_self _ _)
    simp only [applySkillUpdate]
    split_ifs with hlt
    · rfl
    · have hdvd : Int.fdiv e.xp 500 ≤ Int.fdiv (e.xp + d.1) 500 := by
        rw [Int.fdiv_eq_ediv _ (by norm_num), Int.fdiv_eq_ediv _ (by norm_num)]
        exact Int.ediv_le_ediv (by norm_num) (by omega)
      have hmono : min (Int.fdiv e.xp 500) 10 ≤ min (Int.fdiv (e.xp + d.1) 500) 10 :=
        min_le_min hdvd (le_refl 10)
      exact le_antisymm (h ▸ hmono) (not_lt.mp hlt)

/-- C5 (amended): as long as every XP delta is nonnegative — which is
how the routes use it — the stored level of a skill folded from a fresh
record equals min(floor(xp / 500), 10) of its cumulative XP and is
capped at 10; and a level-up is reported exactly when the recomputed
level strictly exceeds the stored one; with a negative delta the stored
level can exceed the recomputed value, since level is only overwritten
upward. -/
theorem skill_level_formula_nonneg_deltas :
    (∀ (l : List (ℤ × ℚ)) (skill : String) (now : ℕ),
        (∀ d ∈ l, 0 ≤ d.1) →
        ((l.foldl (fun acc d => (applySkillUpdate acc d.1 d.2 now).1)
            (freshSkillEntry skill now)).level =
          min (Int.fdiv (l.foldl (fun acc d => (applySkillUpdate acc d.1 d.2 now).1)
            (freshSkillEntry skill now)).xp 500) 10) ∧
        (l.foldl (fun acc d => (applySkillUpdate acc d.1 d.2 now).1)
            (freshSkillEntry skill now)).level ≤ 10) ∧
    (∀ (e : SkillEntry) (xpGained : ℤ) (s : ℚ) (now : ℕ),
        (((applySkillUpdate e xpGained s now).2).leveledUp = true ↔
          e.level < min (Int.fdiv (e.xp + xpGained) 500) 10)) := by
  constructor
  · intro l skill now hpos
    have h := skill_fold_level_invariant now l (freshSkillEntry skill now) hpos rfl
    exact ⟨h, h ▸ min_le_right _ _⟩
  · intro e xpGained s now
    simp only [applySkillUpdate]
    split_ifs with h <;> simp [h]

/-- Witness for the amended skill-level formula at the concrete
nonnegative delta sequence 500 then 260. -/
theorem skill_level_formula_nonneg_deltas_witness :
    (∀ d ∈ ([(500, 50), (260, 80)] : List (ℤ × ℚ)), 0 ≤ d.1) ∧
    ((([(500, 50), (260, 80)] : List (ℤ × ℚ)).foldl
        (fun acc d => (applySkillUpdate acc d.1 d.2 0).1) (freshSkillEntry "vocabulary" 0)).level
      = min (Int.fdiv (([(500, 50), (260, 80)] : List (ℤ × ℚ)).foldl
        (fun acc d => (applySkillUpdate acc d.1 d.2 0).1)
        (freshSkillEntry "vocabulary" 0)).xp 500) 10) ∧
    (([(500, 50), (260, 80)] : List (ℤ × ℚ)).foldl
        (fun acc d => (applySkillUpdate acc d.1 d.2 0).1)
        (freshSkillEntry "vocabulary" 0)).level ≤ 10 := by
  have hpos : ∀ d ∈ ([(500, 50), (260, 80)] : List (ℤ × ℚ)), 0 ≤ d.1 := by
    intro d hd
    fin_cases hd <;> norm_num
  exact ⟨hpos,
    (skill_level_formula_nonneg_deltas.1 [(500, 50), (260, 80)] "vocabulary" 0 hpos).1,
    (skill_level_formula_nonneg_deltas.1 [(500, 50), (260, 80)] "vocabulary" 0 hpos).2⟩

/-- Ledger whose only lesson was completed with 95 and then re-attempted
with 50: the lesson's status reverts to in progress, so no completed or
mastered lesson remains, but the statistics keep the old average. -/
def staleStatsProgress : Progress :=
  updateLessonProgress (updateLessonProgress (mkInitialProgress "speaking" 3) "lesson2" 95 5 3)
    "lesson2" 50 5 3

/-- C8 counterexample: a reachable ledger state in which no lesson has
status completed or mastered, yet statistics.averageScore is 95 rather
than the claimed 0 — and invoking the recomputation again leaves it at
95, because the code only overwrites the average when at least one
completed lesson exists. -/
theorem statistics_average_stale :
    staleStatsProgress.lessonProgress.filter isCompletedOrMastered = [] ∧
    staleStatsProgress.statistics.averageScore = 95 ∧
    (updateStatistics staleStatsProgress).statistics.averageScore = 95 := by
  refine ⟨by decide, ?_, ?_⟩
  · have h1 : staleStatsProgress.statistics.averageScore = ((95 : ℕ) : ℚ) / ((1 : ℕ) : ℚ) := rfl
    rw [h1]
    norm_num
  · have h2 : (updateStatistics staleStatsProgress).statistics.averageScore =
        ((95 : ℕ) : ℚ) / ((1 : ℕ) : ℚ) := rfl
    rw [h2]
    norm_num

lemma updateStatistics_fields (p : Progress) :
    ((updateStatistics p).statistics.totalLessonsCompleted =
      (p.lessonProgress.filter isCompletedOrMastered).length) ∧
    ((updateStatistics p).statistics.totalTimeSpent =
      (p.lessonProgress.map LessonEntry.timeSpent).sum) ∧
    ((updateStatistics p).statistics.averageScore =
      if 0 < (p.lessonProgress.filter isCompletedOrMastered).length then
        (((p.lessonProgress.filter isCompletedOrMastered).map LessonEntry.score).sum : ℚ) /
          ((p.lessonProgress.filter isCompletedOrMastered).length : ℚ)
      else p.statistics.averageScore) ∧
    ((updateStatistics p).statistics.perfectScores =
      (p.lessonProgress.filter (fun lp => lp.score == 100)).length) ∧
    ((updateStatistics p).statistics.wordsLearned =
      (p.vocabularyProgress.filter VocabEntry.isLearned).length) ∧
    ((updateStatistics p).statistics.speakingExercisesCompleted =
      (p.speakingProgress.filter SpeakingEntry.isCompleted).length) ∧
    ((updateStatistics p).statistics.listeningExercisesCompleted =
      (p.listeningProgress.filter ListeningEntry.isCompleted).length) ∧
    ((updateStatistics p).statistics.averageSpeakingScore =
      if 0 < p.speakingProgress.length then
        natRoundDiv (p.speakingProgress.map SpeakingEntry.averageScore).sum
          p.speakingProgress.length
      else p.statistics.averageSpeakingScore) ∧
    ((updateStatistics p).statistics.averageListeningScore =
      if 0 < p.listeningProgress.length then
        natRoundDiv (p.listeningProgress.map ListeningEntry.averageScore).sum
          p.listeningProgress.length
      else p.statistics.averageListeningScore) ∧
    ((updateStatistics p).statistics.bestStreak = p.statistics.bestStreak) := by
  simp only [updateStatistics]
  split_ifs <;> simp_all

lemma updateStatistics_idem (p : Progress) :
    (updateStatistics (updateStatistics p)).statistics = (updateStatistics p).statistics := by
  simp only [updateStatistics]
  split_ifs <;> rfl

/-- C8 (amended): the recomputed statistics are a pure function of the
collections in all fields except the three averages and the streak:
averageScore (and the speaking and listening averages) is overwritten
with the mean over the relevant collection only when that collection is
non-empty and otherwise keeps its previous value (so it is 0 with no
completed lesson only if it was never set), bestStreak is never touched,
no recomputation ever divides by zero, and recomputation is idempotent. -/
theorem statistics_recompute_fields :
    ∀ p : Progress,
      (((updateStatistics p).statistics.totalLessonsCompleted =
        (p.lessonProgress.filter isCompletedOrMastered).length) ∧
      ((updateStatistics p).statistics.totalTimeSpent =
        (p.lessonProgress.map LessonEntry.timeSpent).sum) ∧
      ((updateStatistics p).statistics.averageScore =
        if 0 < (p.lessonProgress.filter isCompletedOrMastered).length then
          (((p.lessonProgress.filter isCompletedOrMastered).map LessonEntry.score).sum : ℚ) /
            ((p.lessonProgress.filter isCompletedOrMastered).length : ℚ)
        else p.statistics.averageScore) ∧
      ((updateStatistics p).statistics.perfectScores =
        (p.lessonProgress.filter (fun lp => lp.score == 100)).length) ∧
      ((updateStatistics p).statistics.wordsLearned =
        (p.vocabularyProgress.filter VocabEntry.isLearned).length) ∧
      ((updateStatistics p).statistics.speakingExercisesCompleted =
        (p.speakingProgress.filter SpeakingEntry.isCompleted).length) ∧
      ((updateStatistics p).statistics.listeningExercisesCompleted =
        (p.listeningProgress.filter ListeningEntry.isCompleted).length) ∧
      ((updateStatistics p).statistics.averageSpeakingScore =
        if 0 < p.speakingProgress.length then
          natRoundDiv (p.speakingProgress.map SpeakingEntry.averageScore).sum
            p.speakingProgress.length
        else p.statistics.averageSpeakingScore) ∧
      ((updateStatistics p).statistics.averageListeningScore =
        if 0 < p.listeningProgress.length then
          natRoundDiv (p.listeningProgress.map ListeningEntry.averageScore).sum
            p.listeningProgress.length
        else p.statistics.averageListeningScore) ∧
      ((updateStatistics p).statistics.bestStreak = p.statistics.bestStreak)) ∧
      (updateStatistics (updateStatistics p)).statistics = (updateStatistics p).statistics :=
  fun p => ⟨updateStatistics_fields p, updateStatistics_idem p⟩

lemma find?_updateWhere {α : Type} (q : α → Bool) (f : α → α) (l : List α)
    (hf : ∀ e, q e = true → q (f e) = true) :
    (updateWhere q f l).find? q = (l.find? q).map f := by
  induction l with
  | nil => rfl
  | cons e es ih =>
    by_cases hq : q e = true
    · simp only [updateWhere, if_pos hq]
      rw [List.find?_cons_of_pos _ (hf e hq), List.find?_cons_of_pos _ hq]
      rfl
    · simp only [updateWhere, if_neg hq]
      rw [List.find?_cons_of_neg _ hq, List.find?_cons_of_neg _ hq]
      exact ih

lemma updateListening_find (p : Progress) (ex : ListeningExerciseInput)
    (a : ListeningAttemptInput) (now : ℕ) :
    ∃ e', ((updateListeningProgress p ex a now).1.listeningProgress.find?
        (fun lp => lp.exerciseId == ex.exerciseId)) = some e' ∧
      a.comprehensionScore ≤ e'.bestScore := by
  have hid : ∀ e : ListeningEntry, (applyListeningAttempt e a now).exerciseId = e.exerciseId :=
    fun e => rfl
  have hbest : ∀ e : ListeningEntry,
      a.comprehensionScore ≤ (applyListeningAttempt e a now).bestScore := by
    intro e
    simp only [applyListeningAttempt]
    split_ifs with h <;> omega
  have hcoll : ∀ pp : Progress, (updateStatistics pp).listeningProgress = pp.listeningProgress :=
    fun _ => rfl
  simp only [updateListeningProgress]
  rcases hfind : p.listeningProgress.find? (fun lp => lp.exerciseId == ex.exerciseId) with _ | e
  · simp only [hfind]
    refine ⟨applyListeningAttempt (freshListeningEntry ex now) a now, ?_, hbest _⟩
    rw [hcoll, List.find?_append, hfind]
    rw [List.find?_cons_of_pos]
    · rfl
    · rw [hid]
      simp [freshListeningEntry]
  · simp only [hfind]
    refine ⟨applyListeningAttempt e a now, ?_, hbest e⟩
    rw [hcoll, find?_updateWhere _ _ _ (fun x hx => by rw [hid x]; exact hx), hfind]
    rfl

lemma updateSpeaking_find (p : Progress) (ex : SpeakingExerciseInput)
    (a : SpeakingAttemptInput) (now : ℕ) :
    ∃ e', ((updateSpeakingProgress p ex a now).1.speakingProgress.find?
        (fun sp => sp.exerciseId == ex.exerciseId)) = some e' ∧
      overallOf a ≤ e'.bestScore := by
  have hid : ∀ e : SpeakingEntry, (applySpeakingAttempt e a now).exerciseId = e.exerciseId :=
    fun e => rfl
  have hbest : ∀ e : SpeakingEntry, overallOf a ≤ (applySpeakingAttempt e a now).bestScore := by
    intro e
    simp only [applySpeakingAttempt]
    split_ifs with h <;> omega
  have hcoll : ∀ pp : Progress, (updateStatistics pp).speakingProgress = pp.speakingProgress :=
    fun _ => rfl
  simp only [updateSpeakingProgress]
  rcases hfind : p.speakingProgress.find? (fun sp => sp.exerciseId == ex.exerciseId) with _ | e
  · simp only [hfind]
    refine ⟨applySpeakingAttempt (freshSpeakingEntry ex now) a now, ?_, hbest _⟩
    rw [hcoll, List.find?_append, hfind]
    rw [List.find?_cons_of_pos]
    · rfl
    · rw [hid]
      simp [freshSpeakingEntry]
  · simp only [hfind]
    refine ⟨applySpeakingAttempt e a now, ?_, hbest e⟩
    rw [hcoll, find?_updateWhere _ _ _ (fun x hx => by rw [hid x]; exact hx), hfind]
    rfl

lemma updateSkillProgress_listening (p : Progress) (sk : String) (x : ℤ) (acc : ℚ)
    (now : ℕ) :
    (updateSkillProgress p sk x acc now).1.listeningProgress = p.listeningProgress := by
  simp only [updateSkillProgress]
  rcases hfind : p.skillProgress.find? (fun sp => sp.skill == sk) with _ | e <;> simp [hfind]

lemma updateSkillProgress_speaking (p : Progress) (sk : String) (x : ℤ) (acc : ℚ)
    (now : ℕ) :
    (updateSkillProgress p sk x acc now).1.speakingProgress = p.speakingProgress := by
  simp only [updateSkillProgress]
  rcases hfind : p.skillProgress.find? (fun sp => sp.skill == sk) with _ | e <;> simp [hfind]

lemma updateDailyProgress_listening (p : Progress) (xp : ℕ) (ty : String) (t now : ℕ) :
    (updateDailyProgress p xp ty t now).listeningProgress = p.listeningProgress := rfl

lemma updateDailyProgress_speaking (p : Progress) (xp : ℕ) (ty : String) (t now : ℕ) :
    (updateDailyProgress p xp ty t now).speakingProgress = p.speakingProgress := rfl

/-- C1: the newBestScore field of the practice responses is identically
false, because both handlers compare the attempt's score against the
entry's bestScore after the update has already folded that score into
it — never against the previous best; in particular a first listening
attempt scoring 85 against a previous best of 0 (no entry at all) still
reports false, where the claimed behaviour demands true. -/
theorem routeNewBestScore_always_false :
    (∀ (p : Progress) (ex : ListeningExerciseInput) (a : ListeningAttemptInput) (now : ℕ),
        (listeningPracticeRoute p ex a now).newBestScore = false) ∧
    (∀ (p : Progress) (ex : SpeakingExerciseInput) (a : SpeakingAttemptInput) (now : ℕ),
        (speakingPracticeRoute p ex a now).newBestScore = false) ∧
    ((mkInitialProgress "listening" 0).listeningProgress.find?
        (fun lp => lp.exerciseId == "ex1") = none) ∧
    ((listeningPracticeRoute (mkInitialProgress "listening" 0)
        ⟨"ex1", "title", "url", "tr", "conversation", "beginner", 60⟩
        ⟨85, 4, 3, 120, 100, [], ""⟩ 0).newBestScore = false) := by
  have hlst : ∀ (p : Progress) (ex : ListeningExerciseInput) (a : ListeningAttemptInput)
      (now : ℕ), (listeningPracticeRoute p ex a now).newBestScore = false := by
    intro p ex a now
    obtain ⟨e', hfind, hle⟩ := updateListening_find p ex a now
    simp only [listeningPracticeRoute, updateDailyProgress_listening,
      updateSkillProgress_listening]
    rw [hfind]
    simp only [Option.map_some', Option.getD_some]
    exact decide_eq_false (not_lt.mpr hle)
  have hspk : ∀ (p : Progress) (ex : SpeakingExerciseInput) (a : SpeakingAttemptInput)
      (now : ℕ), (speakingPracticeRoute p ex a now).newBestScore = false := by
    intro p ex a now
    obtain ⟨e', hfind, hle⟩ := updateSpeaking_find p ex a now
    simp only [speakingPracticeRoute, updateDailyProgress_speaking,
      updateSkillProgress_speaking]
    rw [hfind]
    simp only [Option.map_some', Option.getD_some]
    exact decide_eq_false (not_lt.mpr hle)
  exact ⟨hlst, hspk, rfl, hlst _ _ _ _⟩

end ProgressLedger
